import Mathlib

/-!
Verification of the `trolyvanban` document-assistant repository.

This file shallowly embeds the parts of the code that the specification's
claims are about:

* `src/services/geminiService.ts` (provided as `src/unnamed/part_001`):
  the retrying remote-call wrapper `callGeminiWithRetry` and the AI
  pipeline stage functions built on top of it.
* `src/components/DocumentAnalyzer.tsx`: the document data model
  (`Page`, `DocumentData`), the page-edit handler
  `handlePageContentChange`, the field-edit handler `handleDataChange`,
  the debounced page-selection predicate of the processing effect, and
  the upload-list operation `removeFile`.

Modelling conventions:

* A JavaScript error is represented by its diagnostic text (a `String`):
  the code classifies errors with `error?.toString()` and re-surfaces
  them with `error.message`; both are carried by the same string here.
* The remote SDK call (prompt assembly plus network request) is
  abstracted as `op : Nat → Except String α`, giving the outcome of the
  i-th invocation of the request function.  Prompt construction is pure
  string assembly with no branching and does not affect any claim.
* `Math.random() * 1000` jitter is abstracted as `jit : Nat → ℚ`, the
  jitter drawn before the i-th retry; theorems that need its range take
  the bound `0 ≤ jit n < 1000` as a hypothesis.
* Waiting (`setTimeout`) is modelled by recording the requested delay
  (in milliseconds, as a rational) in an ordered trace list.
* `import.meta.env.VITE_API_KEY` is `apiKey : Option String` (`none`
  for an undefined variable, `some ""` for a defined-but-empty one; the
  code's `!apiKey` test is falsy in both cases).
-/

/-! ## Definitions -/

def MAX_RETRIES : Nat := 8

def INITIAL_BACKOFF_MS : Nat := 2000

/-- Prefix test on character lists (`true` when the first list is a
prefix of the second). -/
def charsPrefix : List Char → List Char → Bool
  | [], _ => true
  | _ :: _, [] => false
  | a :: xs, b :: ys => a == b && charsPrefix xs ys

/-- `hay.includes(sub)` : substring containment, on character lists. -/
def charsIncludes (hay sub : List Char) : Bool :=
  match hay with
  | [] => sub.isEmpty
  | _ :: t => charsPrefix sub hay || charsIncludes t sub

/-- `errorString.includes(marker)` on strings, via their character
lists. -/
def includesSub (hay sub : String) : Bool :=
  charsIncludes hay.toList sub.toList

/-- The rate-limit classifier of `callGeminiWithRetry`:
`errorString.toLowerCase()` contains `"429"`, `"resource_exhausted"` or
`"quota"`.  Lower-casing is per character; the three markers are ASCII,
so this agrees with JavaScript `toLowerCase` on them. -/
def isRateLimitError (diag : String) : Bool :=
  let s := diag.toList.map Char.toLower
  charsIncludes s "429".toList || charsIncludes s "resource_exhausted".toList ||
    charsIncludes s "quota".toList

/-- The fixed user-facing message thrown after all retries fail due to
persistent rate limiting. -/
def overloadMessage : String :=
  "Hệ thống AI đang tạm thời quá tải. Vui lòng thử lại sau ít phút."

/-- Outcome of the retry wrapper: the operation's successful result, or a
thrown error carrying its diagnostic text. -/
inductive RetryResult (α : Type) where
  | ok (a : α)
  | err (diag : String)
deriving Repr, DecidableEq

/-- One execution of the `for (let i = 0; i < MAX_RETRIES; i++)` loop of
`callGeminiWithRetry`, starting at attempt index `i` with `fuel`
remaining iterations (`fuel = MAX_RETRIES - i` at entry).  Returns the
outcome, the number of invocations of the operation, and the ordered
list of backoff delays requested from `setTimeout`.

Mirrors the source: a successful attempt returns immediately; a failing
attempt is classified by `isRateLimitError`; a non-rate-limit error is
rethrown unchanged; a rate-limit error waits
`INITIAL_BACKOFF_MS * 2 ^ i + jitter` when further iterations remain
(`i < MAX_RETRIES - 1`, i.e. inner `fuel ≠ 0`) and otherwise falls
through to the fixed overload error. -/
def retryLoop (op : Nat → Except String α) (jit : Nat → ℚ) (i : Nat) :
    Nat → RetryResult α × Nat × List ℚ
  | 0 => (.err overloadMessage, 0, [])
  | fuel + 1 =>
    match op i with
    | .ok a => (.ok a, 1, [])
    | .error e =>
      if isRateLimitError e then
        if fuel = 0 then
          (.err overloadMessage, 1, [])
        else
          let d : ℚ := (INITIAL_BACKOFF_MS : ℚ) * 2 ^ i + jit i
          let r := retryLoop op jit (i + 1) fuel
          (r.1, r.2.1 + 1, d :: r.2.2)
      else
        (.err e, 1, [])

/-- `callGeminiWithRetry`: run the retry loop from attempt 0 with
`MAX_RETRIES` iterations available. -/
def callGeminiWithRetry (op : Nat → Except String α) (jit : Nat → ℚ) :
    RetryResult α × Nat × List ℚ :=
  retryLoop op jit 0 MAX_RETRIES

def opAllRateLimited : Nat → Except String String :=
  fun _ => .error "Error: 429 RESOURCE_EXHAUSTED"

def opPlainFailure : Nat → Except String String :=
  fun _ => .error "Error: something broke"

def opFailThenOk : Nat → Except String String :=
  fun i => if i = 0 then .error "HTTP 429: quota exceeded" else .ok "ok-result"

def jitZero : Nat → ℚ := fun _ => 0

/-- `getAIClient`: fails when `import.meta.env.VITE_API_KEY` is falsy
(undefined or the empty string). -/
def getAIClient (apiKey : Option String) : Except String Unit :=
  match apiKey with
  | none => .error "API key not configured."
  | some k => if k.isEmpty then .error "API key not configured." else .ok ()

/-- The `!apiKey` test of `getAIClient`. -/
def keyMissing : Option String → Bool
  | none => true
  | some k => k.isEmpty

/-- Structured result of the draft-generation stage. -/
structure GeneratedDraft where
  subject : String
  rawContent : String
  recipients : String
  signerTitle : String
deriving Repr, DecidableEq

/-- `generateDocumentContentWithAI`: check the client, call the model
through the retry wrapper, trim and JSON-parse the response text; any
caught error is rethrown with its message, or the stage's fallback when
that message is empty. -/
def generateDocumentContentWithAI (apiKey : Option String)
    (op : Nat → Except String String) (jit : Nat → ℚ)
    (parse : String → Except String GeneratedDraft) :
    Except String GeneratedDraft × Nat :=
  match getAIClient apiKey with
  | .error e => (.error e, 0)
  | .ok _ =>
    let r := callGeminiWithRetry op jit
    match r.1 with
    | .ok text =>
      match parse text.trim with
      | .ok draft => (.ok draft, r.2.1)
      | .error d =>
        (.error (if d = "" then
          "AI không thể tạo nội dung. Vui lòng thử lại với yêu cầu rõ ràng hơn." else d),
         r.2.1)
    | .err d =>
      (.error (if d = "" then
        "AI không thể tạo nội dung. Vui lòng thử lại với yêu cầu rõ ràng hơn." else d),
       r.2.1)

/-- `formalizeContentWithAI`: returns the model's text; a caught error is
rethrown with its message, or the stage's fallback when empty. -/
def formalizeContentWithAI (apiKey : Option String)
    (op : Nat → Except String String) (jit : Nat → ℚ) :
    Except String String × Nat :=
  match getAIClient apiKey with
  | .error e => (.error e, 0)
  | .ok _ =>
    let r := callGeminiWithRetry op jit
    match r.1 with
    | .ok text => (.ok text, r.2.1)
    | .err d =>
      (.error (if d = "" then "Không thể định dạng nội dung từ AI." else d), r.2.1)

/-- `suggestFormattingWithAI`: returns the model's text; on any caught
error it falls back to returning the caller-supplied content unchanged
instead of rethrowing. -/
def suggestFormattingWithAI (apiKey : Option String)
    (op : Nat → Except String String) (jit : Nat → ℚ)
    (processedContent : String) : Except String String × Nat :=
  match getAIClient apiKey with
  | .error e => (.error e, 0)
  | .ok _ =>
    let r := callGeminiWithRetry op jit
    match r.1 with
    | .ok text => (.ok text, r.2.1)
    | .err _ => (.ok processedContent, r.2.1)

/-- `proofreadWithAI`: returns the model's text trimmed; a caught error
is rethrown with its message, or the stage's fallback when empty. -/
def proofreadWithAI (apiKey : Option String)
    (op : Nat → Except String String) (jit : Nat → ℚ) :
    Except String String × Nat :=
  match getAIClient apiKey with
  | .error e => (.error e, 0)
  | .ok _ =>
    let r := callGeminiWithRetry op jit
    match r.1 with
    | .ok text => (.ok text.trim, r.2.1)
    | .err d =>
      (.error (if d = "" then "Không thể kiểm tra chính tả & ngữ pháp bằng AI." else d),
       r.2.1)

/-- `extractTextFromImage`: returns the model's text; a caught error is
rethrown with its message, or the stage's fallback when empty. -/
def extractTextFromImage (apiKey : Option String)
    (op : Nat → Except String String) (jit : Nat → ℚ) :
    Except String String × Nat :=
  match getAIClient apiKey with
  | .error e => (.error e, 0)
  | .ok _ =>
    let r := callGeminiWithRetry op jit
    match r.1 with
    | .ok text => (.ok text, r.2.1)
    | .err d =>
      (.error (if d = "" then "Không thể trích xuất văn bản từ hình ảnh." else d), r.2.1)

/-- `analyzeText`: returns the model's text; a caught error is rethrown
with its message, or the stage's fallback when empty. -/
def analyzeText (apiKey : Option String)
    (op : Nat → Except String String) (jit : Nat → ℚ) :
    Except String String × Nat :=
  match getAIClient apiKey with
  | .error e => (.error e, 0)
  | .ok _ =>
    let r := callGeminiWithRetry op jit
    match r.1 with
    | .ok text => (.ok text, r.2.1)
    | .err d =>
      (.error (if d = "" then "Không thể phân tích văn bản." else d), r.2.1)

/-- A failing stand-in for the host `JSON.parse` builtin, used by the C8
witness. -/
def parseNever : String → Except String GeneratedDraft :=
  fun _ => .error "Unexpected token"

/-- JavaScript `String.prototype.trim`: strip leading and trailing
whitespace. -/
def jsTrim (s : String) : String :=
  ⟨((s.data.dropWhile Char.isWhitespace).reverse.dropWhile Char.isWhitespace).reverse⟩

/-- JavaScript `s.startsWith(pre)`. -/
def jsStartsWith (s pre : String) : Bool :=
  charsPrefix pre.data s.data

/-- Split a character list at every occurrence of `sep` (occurrences
between two separators and at the ends yield empty pieces, as in
JavaScript `split`). -/
def splitChars (sep : Char) : List Char → List Char → List (List Char)
  | [], acc => [acc.reverse]
  | c :: rest, acc =>
    if c = sep then acc.reverse :: splitChars sep rest []
    else splitChars sep rest (c :: acc)

/-- JavaScript `s.split(sep)` for a one-character separator. -/
def jsSplit (s : String) (sep : Char) : List String :=
  (splitChars sep s.data []).map String.mk

/-- JavaScript `parts.join(sep)`. -/
def jsJoin (sep : String) : List String → String
  | [] => ""
  | [a] => a
  | a :: rest => a ++ sep ++ jsJoin sep rest

/-- Code points of the upper-case letters Ă, Đ, Ĩ, Ũ, Ơ, Ư: the
Vietnamese letters in the Latin Extended-A/B blocks, where the
lower-case form is the next code point. -/
def viExtUpper : List Nat :=
  [0x102, 0x110, 0x128, 0x168, 0x1A0, 0x1AF]

/-- JavaScript `toLowerCase` on one character, on the scripts this
application's inputs use: ASCII, the Latin-1 letters
(`U+00C0`-`U+00DE` except `×`), the paired Vietnamese letters of Latin
Extended-A/B (`viExtUpper`), and the Latin Extended Additional range
`U+1EA0`-`U+1EF9` holding all remaining Vietnamese vowel/tone letters,
where upper case sits at even and lower case at odd code points.
Characters outside these ranges are left unchanged; the JavaScript
mappings that fall outside them (e.g. `ß`, `ÿ`, `µ`, whose images are
multi-character or in another block) do not occur in Vietnamese text. -/
def jsCharToLower (c : Char) : Char :=
  let n := c.toNat
  if 65 ≤ n ∧ n ≤ 90 then Char.ofNat (n + 32)
  else if 0xC0 ≤ n ∧ n ≤ 0xDE ∧ n ≠ 0xD7 then Char.ofNat (n + 32)
  else if n ∈ viExtUpper then Char.ofNat (n + 1)
  else if 0x1EA0 ≤ n ∧ n ≤ 0x1EF9 ∧ n % 2 = 0 then Char.ofNat (n + 1)
  else c

/-- JavaScript `toUpperCase` on one character, inverse of
`jsCharToLower` on the same ranges (ASCII, Latin-1 letters
`U+00E0`-`U+00FE` except `÷`, the letters after `viExtUpper`, and the
odd code points of `U+1EA0`-`U+1EF9`); all other characters are left
unchanged. -/
def jsCharToUpper (c : Char) : Char :=
  let n := c.toNat
  if 97 ≤ n ∧ n ≤ 122 then Char.ofNat (n - 32)
  else if 0xE0 ≤ n ∧ n ≤ 0xFE ∧ n ≠ 0xF7 then Char.ofNat (n - 32)
  else if n - 1 ∈ viExtUpper then Char.ofNat (n - 1)
  else if 0x1EA0 ≤ n ∧ n ≤ 0x1EF9 ∧ n % 2 = 1 then Char.ofNat (n - 1)
  else c

/-- JavaScript `s.toLowerCase()`, per character via `jsCharToLower`. -/
def jsToLower (s : String) : String := ⟨s.data.map jsCharToLower⟩

/-- JavaScript `s.toUpperCase()`, per character via `jsCharToUpper`. -/
def jsToUpper (s : String) : String := ⟨s.data.map jsCharToUpper⟩

/-- JavaScript `s.charAt(0)` (a string: empty when `s` is empty). -/
def jsCharAt0 (s : String) : String := ⟨s.data.take 1⟩

/-- JavaScript `s.slice(1)`. -/
def jsSlice1 (s : String) : String := ⟨s.data.drop 1⟩

/-- JavaScript `Array.prototype.findIndex`, with the `-1` sentinel
rendered as `none`. -/
def findIndex (p : α → Bool) : List α → Option Nat
  | [] => none
  | a :: l => if p a then some 0 else (findIndex p l).map (· + 1)

/-- One unit of document body content (`Page` in `types.ts`). -/
structure Page where
  id : String
  rawContent : String
  processedContent : String
  formattedContent : String
deriving Repr, DecidableEq

/-- The document value (`DocumentData` in `types.ts`).  `documentType`
is a string enumeration in the source; `date` is a timestamp. -/
structure DocumentData where
  documentType : String
  issuingAuthority : String
  issuingAuthorityFull : String
  abstract : String
  subject : String
  pages : List Page
  recipients : String
  signerTitle : String
  signerName : String
  place : String
  date : Int
deriving Repr, DecidableEq

/-- `handlePageContentChange`: copy the page array, overwrite entry
`index` with the new raw text and cleared derived fields.  (The claims
only exercise valid indices; an out-of-range index leaves the list
unchanged here.) -/
def handlePageContentChange (doc : DocumentData) (index : Nat)
    (rawContent : String) : DocumentData :=
  match doc.pages[index]? with
  | some p =>
    let newPage : Page :=
      { p with rawContent := rawContent, processedContent := "", formattedContent := "" }
    { doc with pages := doc.pages.set index newPage }
  | none => doc

/-- The predicate of the debounced processing effect:
`p.rawContent.trim() && !p.processedContent`. -/
def pageNeedsProcessing (p : Page) : Bool :=
  !(jsTrim p.rawContent).isEmpty && p.processedContent.isEmpty

/-- The page selection of the debounced processing effect:
`docData.pages.findIndex(p => p.rawContent.trim() && !p.processedContent)`,
stored in the single-slot `processingPageIndex : Option Nat` state. -/
def pageToProcessIndex (pages : List Page) : Option Nat :=
  findIndex pageNeedsProcessing pages

/-- Status of an uploaded file in the analyzer tab. -/
inductive FileStatus where
  | pending
  | processing
  | done
  | failed
deriving Repr, DecidableEq

/-- An entry of the upload list (`ProcessedFile`).  The browser `File`
object and thumbnail are opaque payloads here. -/
structure ProcessedFile where
  id : String
  file : String
  thumbnail : String
  content : String
  status : FileStatus
  error : Option String
deriving Repr, DecidableEq

/-- `removeFile`: `prev.filter(f => f.id !== id)`. -/
def removeFile (files : List ProcessedFile) (id : String) : List ProcessedFile :=
  files.filter (fun f => f.id != id)

/-- The editable non-page fields of `DocumentData`
(`keyof Omit<DocumentData, 'pages'>`). -/
inductive DocField where
  | documentType
  | issuingAuthority
  | issuingAuthorityFull
  | abstract
  | subject
  | recipients
  | signerTitle
  | signerName
  | place
  | date
deriving Repr, DecidableEq

/-- A value passed to `handleDataChange` (`string | Date`; dates as
timestamps). -/
inductive FieldValue where
  | str (s : String)
  | date (d : Int)
deriving Repr, DecidableEq

/-- Read a non-page field back out of the document. -/
def getField (doc : DocumentData) : DocField → FieldValue
  | .documentType => .str doc.documentType
  | .issuingAuthority => .str doc.issuingAuthority
  | .issuingAuthorityFull => .str doc.issuingAuthorityFull
  | .abstract => .str doc.abstract
  | .subject => .str doc.subject
  | .recipients => .str doc.recipients
  | .signerTitle => .str doc.signerTitle
  | .signerName => .str doc.signerName
  | .place => .str doc.place
  | .date => .date doc.date

/-- The value kind matches the field's declared type. -/
def fieldWellTyped : DocField → FieldValue → Bool
  | .date, .date _ => true
  | .date, .str _ => false
  | _, .str _ => true
  | _, .date _ => false

/-- `{...prev, [field]: value}`: assign one field.  A value kind that
does not match the field's type cannot arise from the form UI and
leaves the document unchanged here. -/
def setPlainField (doc : DocumentData) : DocField → FieldValue → DocumentData
  | .documentType, .str s => { doc with documentType := s }
  | .issuingAuthority, .str s => { doc with issuingAuthority := s }
  | .issuingAuthorityFull, .str s => { doc with issuingAuthorityFull := s }
  | .abstract, .str s => { doc with abstract := s }
  | .subject, .str s => { doc with subject := s }
  | .recipients, .str s => { doc with recipients := s }
  | .signerTitle, .str s => { doc with signerTitle := s }
  | .signerName, .str s => { doc with signerName := s }
  | .place, .str s => { doc with place := s }
  | .date, .date d => { doc with date := d }
  | _, _ => doc

/-- The `issuingAuthority` branch of `handleDataChange`: recompute the
title-cased full name, derive the abbreviation from the initials of the
already-capitalized words, and replace (or append) the `- Lưu:` line of
the recipients text. -/
def handleIssuingAuthorityChange (doc : DocumentData) (authority : String) :
    DocumentData :=
  let full := jsJoin " " ((jsSplit authority ' ').map
    (fun word => jsToUpper (jsCharAt0 word) ++ jsToLower (jsSlice1 word)))
  let abbr := jsJoin "" (((jsSplit authority ' ').filter
    (fun word => !word.isEmpty && (jsCharAt0 word == jsToUpper (jsCharAt0 word)))).map
    (fun word => jsCharAt0 word))
  let lines := jsSplit doc.recipients '\n'
  let newLine := "- Lưu: VT, " ++ abbr ++ "."
  let newLines :=
    match findIndex (fun line => jsStartsWith (jsTrim line) "- Lưu:") lines with
    | some idx => lines.set idx newLine
    | none => lines ++ [newLine]
  { doc with issuingAuthority := authority,
             issuingAuthorityFull := full,
             recipients := jsJoin "\n" newLines }

/-- `handleDataChange`: the `issuingAuthority` field gets the derived
update above; every other field is assigned by object spread. -/
def handleDataChange (doc : DocumentData) (field : DocField)
    (value : FieldValue) : DocumentData :=
  match field, value with
  | .issuingAuthority, .str authority => handleIssuingAuthorityChange doc authority
  | f, v => setPlainField doc f v

/-- Title-case one word: upper-case first character, lower-case the
rest. -/
def titleCaseWord (word : String) : String :=
  jsToUpper (jsCharAt0 word) ++ jsToLower (jsSlice1 word)

/-- The word is non-empty and its first character is already
upper-case. -/
def firstCharIsUpper (word : String) : Bool :=
  !word.isEmpty && (jsCharAt0 word == jsToUpper (jsCharAt0 word))

/-- The initials of the words whose first character is already
upper-case. -/
def initialsAbbr (authority : String) : String :=
  jsJoin "" (((jsSplit authority ' ').filter firstCharIsUpper).map jsCharAt0)

/-- A recipients line that (after trimming) starts with `- Lưu:`. -/
def luuLinePred (line : String) : Bool :=
  jsStartsWith (jsTrim line) "- Lưu:"

def pageDone : Page :=
  { id := "page-1", rawContent := "đã xử lý", processedContent := "Nội dung.",
    formattedContent := "**Nội dung.**" }

def pageTodo : Page :=
  { id := "page-2", rawContent := " cần xử lý ", processedContent := "",
    formattedContent := "" }

def pages0 : List Page := [pageDone, pageTodo]

def doc0 : DocumentData :=
  { documentType := "TỜ TRÌNH",
    issuingAuthority := "PHÒNG NGHIÊN CỨU KHOA HỌC",
    issuingAuthorityFull := "Phòng Nghiên cứu Khoa học",
    abstract := "",
    subject := "V/v đề nghị phê duyệt",
    pages := pages0,
    recipients := "Như trên;\n- Lưu: VT, PNCKH.",
    signerTitle := "TRƯỞNG PHÒNG",
    signerName := "Nguyễn Văn A",
    place := "Hà Nội",
    date := 0 }

def fileA : ProcessedFile :=
  { id := "a", file := "a.pdf", thumbnail := "", content := "nội dung a",
    status := .done, error := none }

def fileB : ProcessedFile :=
  { id := "b", file := "b.docx", thumbnail := "", content := "nội dung b",
    status := .pending, error := none }

def fileA2 : ProcessedFile :=
  { id := "a", file := "a2.png", thumbnail := "", content := "",
    status := .failed, error := some "hỏng" }

def files0 : List ProcessedFile := [fileA, fileB, fileA2]

/-! ## Theorems -/

theorem retryLoop_success (op : Nat → Except String α) (jit : Nat → ℚ)
    (i fuel : Nat) (a : α) (hf : fuel ≠ 0) (hop : op i = .ok a) :
    retryLoop op jit i fuel = (.ok a, 1, []) := by
  obtain ⟨f, rfl⟩ := Nat.exists_eq_succ_of_ne_zero hf
  simp [retryLoop, hop]

theorem retryLoop_nonRateLimit (op : Nat → Except String α) (jit : Nat → ℚ)
    (i fuel : Nat) (d : String) (hf : fuel ≠ 0) (hop : op i = .error d)
    (hr : isRateLimitError d = false) :
    retryLoop op jit i fuel = (.err d, 1, []) := by
  obtain ⟨f, rfl⟩ := Nat.exists_eq_succ_of_ne_zero hf
  simp [retryLoop, hop, hr]

theorem retryLoop_rateLimit_step (op : Nat → Except String α) (jit : Nat → ℚ)
    (i fuel : Nat) (d : String) (hf : 2 ≤ fuel) (hop : op i = .error d)
    (hr : isRateLimitError d = true) :
    retryLoop op jit i fuel =
      ((retryLoop op jit (i + 1) (fuel - 1)).1,
       (retryLoop op jit (i + 1) (fuel - 1)).2.1 + 1,
       ((INITIAL_BACKOFF_MS : ℚ) * 2 ^ i + jit i) ::
         (retryLoop op jit (i + 1) (fuel - 1)).2.2) := by
  obtain ⟨f, rfl⟩ : ∃ f, fuel = f + 1 :=
    Nat.exists_eq_succ_of_ne_zero (by omega)
  have hf0 : f ≠ 0 := by omega
  simp [retryLoop, hop, hr, hf0]

/-- If every attempt with index in `[i, i + fuel)` fails with a
rate-limit-marked error, the loop makes exactly `fuel` invocations and
ends in the fixed overload error. -/
theorem retryLoop_allRateLimited (op : Nat → Except String α) (jit : Nat → ℚ) :
    ∀ fuel i, fuel ≠ 0 →
    (∀ k, k < fuel → ∃ d, op (i + k) = .error d ∧ isRateLimitError d = true) →
    (retryLoop op jit i fuel).1 = .err overloadMessage ∧
      (retryLoop op jit i fuel).2.1 = fuel := by
  intro fuel
  induction fuel with
  | zero => intro i h; exact absurd rfl h
  | succ f ih =>
    intro i _ h
    obtain ⟨d, hd, hr⟩ := h 0 (Nat.succ_pos f)
    rw [Nat.add_zero] at hd
    by_cases hf : f = 0
    · subst hf
      simp [retryLoop, hd, hr]
    · have hrec := ih (i + 1) hf (fun k hk => by
        obtain ⟨d, hd, hr⟩ := h (k + 1) (by omega)
        exact ⟨d, by rwa [show i + 1 + k = i + (k + 1) by omega], hr⟩)
      simp only [retryLoop, hd, hr, if_true, hf, if_false]
      exact ⟨hrec.1, by rw [hrec.2]⟩

/-- Every delay recorded by the loop at list position `j` (0-indexed)
equals `INITIAL_BACKOFF_MS * 2 ^ (i + j) + jit (i + j)`, and at most
`fuel - 1` delays are recorded. -/
theorem retryLoop_delays (op : Nat → Except String α) (jit : Nat → ℚ) :
    ∀ fuel i,
    (retryLoop op jit i fuel).2.2.length ≤ fuel - 1 ∧
    ∀ j pd, (retryLoop op jit i fuel).2.2.get? j = some pd →
      pd = (INITIAL_BACKOFF_MS : ℚ) * 2 ^ (i + j) + jit (i + j) := by
  intro fuel
  induction fuel with
  | zero => intro i; simp [retryLoop]
  | succ f ih =>
    intro i
    cases hop : op i with
    | ok a => simp [retryLoop, hop]
    | error e =>
      cases hr : isRateLimitError e with
      | false => simp [retryLoop, hop, hr]
      | true =>
        by_cases hf : f = 0
        · subst hf; simp [retryLoop, hop, hr]
        · have hrec := ih (i + 1)
          have hstep := retryLoop_rateLimit_step op jit i (f + 1) e (by omega) hop hr
          rw [Nat.add_sub_cancel] at hstep
          rw [hstep]
          constructor
          · simp only [List.length_cons]
            have := hrec.1
            omega
          · intro j pd hj
            cases j with
            | zero =>
              simp only [List.get?_cons_zero, Option.some.injEq] at hj
              rw [← hj, Nat.add_zero]
            | succ j =>
              simp only [List.get?_cons_succ] at hj
              have := hrec.2 j pd hj
              rw [this, show i + 1 + j = i + (j + 1) by omega]

/-- C1: if the operation fails on every invocation with an error whose
diagnostic text contains a rate-limit marker, `callGeminiWithRetry`
invokes it exactly 8 times and then fails with the fixed user-facing
overload message, discarding the underlying diagnostic. -/
theorem retry_rateLimited_exhausts_and_overloads (op : Nat → Except String α)
    (jit : Nat → ℚ)
    (h : ∀ i, i < MAX_RETRIES → ∃ d, op i = .error d ∧ isRateLimitError d = true) :
    (callGeminiWithRetry op jit).1 = .err overloadMessage ∧
      (callGeminiWithRetry op jit).2.1 = 8 := by
  have hall := retryLoop_allRateLimited op jit MAX_RETRIES 0 (by decide)
    (fun k hk => by simpa using h k hk)
  exact ⟨hall.1, hall.2⟩

theorem retry_rateLimited_exhausts_and_overloads_witness :
    (∀ i, i < MAX_RETRIES →
      ∃ d, opAllRateLimited i = .error d ∧ isRateLimitError d = true) ∧
    ((callGeminiWithRetry opAllRateLimited jitZero).1 = .err overloadMessage ∧
      (callGeminiWithRetry opAllRateLimited jitZero).2.1 = 8) := by
  have hh : ∀ i, i < MAX_RETRIES →
      ∃ d, opAllRateLimited i = .error d ∧ isRateLimitError d = true :=
    fun i _ => ⟨"Error: 429 RESOURCE_EXHAUSTED", rfl, by decide⟩
  exact ⟨hh, retry_rateLimited_exhausts_and_overloads opAllRateLimited jitZero hh⟩

/-- C2: if the first invocation fails with a diagnostic containing none
of the case-insensitive rate-limit markers, the operation is invoked
exactly once and the wrapper fails with that original error unchanged,
with no delay waited. -/
theorem retry_nonRateLimit_fails_once (op : Nat → Except String α)
    (jit : Nat → ℚ) (d : String)
    (hop : op 0 = .error d) (hr : isRateLimitError d = false) :
    callGeminiWithRetry op jit = (.err d, 1, []) :=
  retryLoop_nonRateLimit op jit 0 MAX_RETRIES d (by decide) hop hr

theorem retry_nonRateLimit_fails_once_witness :
    opPlainFailure 0 = .error "Error: something broke" ∧
    isRateLimitError "Error: something broke" = false ∧
    callGeminiWithRetry opPlainFailure jitZero =
      (.err "Error: something broke", 1, []) :=
  ⟨rfl, by decide,
    retry_nonRateLimit_fails_once opPlainFailure jitZero _ rfl (by decide)⟩

/-- C3: if the operation fails once with a rate-limit-marked error and
succeeds on its second invocation, it is invoked exactly twice and the
wrapper returns the second invocation's success value (after a single
backoff delay). -/
theorem retry_retries_then_succeeds (op : Nat → Except String α)
    (jit : Nat → ℚ) (d : String) (a : α)
    (hop0 : op 0 = .error d) (hr : isRateLimitError d = true)
    (hop1 : op 1 = .ok a) :
    callGeminiWithRetry op jit =
      (.ok a, 2, [(INITIAL_BACKOFF_MS : ℚ) * 2 ^ 0 + jit 0]) := by
  have hstep := retryLoop_rateLimit_step op jit 0 MAX_RETRIES d (by decide) hop0 hr
  have hsucc := retryLoop_success op jit 1 (MAX_RETRIES - 1) a (by decide) hop1
  rw [callGeminiWithRetry, hstep]
  norm_num [hsucc]

theorem retry_retries_then_succeeds_witness :
    opFailThenOk 0 = .error "HTTP 429: quota exceeded" ∧
    isRateLimitError "HTTP 429: quota exceeded" = true ∧
    opFailThenOk 1 = .ok "ok-result" ∧
    callGeminiWithRetry opFailThenOk jitZero =
      (.ok "ok-result", 2, [(INITIAL_BACKOFF_MS : ℚ) * 2 ^ 0 + jitZero 0]) :=
  ⟨rfl, by decide, rfl,
    retry_retries_then_succeeds opFailThenOk jitZero _ _ rfl (by decide) rfl⟩

/-- C4: with jitter uniformly drawn in `[0, 1000)`, the backoff delay
recorded before retry `k` (0-indexed position `k` in the delay trace,
i.e. 1-indexed retry `k + 1`) lies in
`[2000 * 2 ^ k, 2000 * 2 ^ k + 1000)` milliseconds, and at most
`MAX_RETRIES - 1 = 7` delays are ever recorded (none after the final
failed attempt). -/
theorem retry_backoff_delay_bounds (op : Nat → Except String α)
    (jit : Nat → ℚ) (hj : ∀ n, 0 ≤ jit n ∧ jit n < 1000) :
    (callGeminiWithRetry op jit).2.2.length ≤ MAX_RETRIES - 1 ∧
    ∀ k pd, (callGeminiWithRetry op jit).2.2.get? k = some pd →
      (INITIAL_BACKOFF_MS : ℚ) * 2 ^ k ≤ pd ∧
        pd < (INITIAL_BACKOFF_MS : ℚ) * 2 ^ k + 1000 := by
  have h := retryLoop_delays op jit MAX_RETRIES 0
  refine ⟨h.1, fun k pd hk => ?_⟩
  have heq := h.2 k pd hk
  rw [Nat.zero_add] at heq
  subst heq
  constructor
  · have := (hj k).1; linarith
  · have := (hj k).2; linarith

theorem retry_backoff_delay_bounds_witness :
    (∀ n, 0 ≤ jitZero n ∧ jitZero n < 1000) ∧
    ((callGeminiWithRetry opAllRateLimited jitZero).2.2.length ≤ MAX_RETRIES - 1 ∧
    ∀ k pd, (callGeminiWithRetry opAllRateLimited jitZero).2.2.get? k = some pd →
      (INITIAL_BACKOFF_MS : ℚ) * 2 ^ k ≤ pd ∧
        pd < (INITIAL_BACKOFF_MS : ℚ) * 2 ^ k + 1000) := by
  have hh : ∀ n, 0 ≤ jitZero n ∧ jitZero n < 1000 :=
    fun n => ⟨by norm_num [jitZero], by norm_num [jitZero]⟩
  exact ⟨hh, retry_backoff_delay_bounds opAllRateLimited jitZero hh⟩

/-- C7 counterexample: with a configured key and an operation whose
first failure is a non-rate-limit error carrying provider text
`"Error: something broke"`, the suggest-formatting stage does not
surface that error to its caller: it succeeds with the caller-supplied
content `"xyz"` unchanged (after exactly one invocation). -/
theorem suggestFormatting_swallows_error_cex :
    suggestFormattingWithAI (some "key") opPlainFailure jitZero "xyz" =
      (.ok "xyz", 1) := by
  rfl

/-- C7 (amended): each AI pipeline stage invokes the remote model
through the retry wrapper; the formalize, proofread, extract-text and
analyze stages surface a pass-through (non-rate-limit) remote error to
their caller with the provider text, but the suggest-formatting stage
catches the failure and returns its caller-supplied content unchanged
instead. -/
theorem stage_error_surfacing_amended (k : String) (hk : k.isEmpty = false)
    (op : Nat → Except String String) (jit : Nat → ℚ) (d input : String)
    (hop : op 0 = .error d) (hr : isRateLimitError d = false) (hd : d ≠ "") :
    formalizeContentWithAI (some k) op jit = (.error d, 1) ∧
    proofreadWithAI (some k) op jit = (.error d, 1) ∧
    extractTextFromImage (some k) op jit = (.error d, 1) ∧
    analyzeText (some k) op jit = (.error d, 1) ∧
    suggestFormattingWithAI (some k) op jit input = (.ok input, 1) := by
  have hcall : callGeminiWithRetry op jit = (.err d, 1, []) :=
    retryLoop_nonRateLimit op jit 0 MAX_RETRIES d (by decide) hop hr
  simp [formalizeContentWithAI, proofreadWithAI, extractTextFromImage,
    analyzeText, suggestFormattingWithAI, getAIClient, hcall, hk, hd]

theorem stage_error_surfacing_amended_witness :
    ("key".isEmpty = false) ∧
    (opPlainFailure 0 = .error "Error: something broke") ∧
    (isRateLimitError "Error: something broke" = false) ∧
    ("Error: something broke" ≠ "") ∧
    (formalizeContentWithAI (some "key") opPlainFailure jitZero =
        (.error "Error: something broke", 1) ∧
      proofreadWithAI (some "key") opPlainFailure jitZero =
        (.error "Error: something broke", 1) ∧
      extractTextFromImage (some "key") opPlainFailure jitZero =
        (.error "Error: something broke", 1) ∧
      analyzeText (some "key") opPlainFailure jitZero =
        (.error "Error: something broke", 1) ∧
      suggestFormattingWithAI (some "key") opPlainFailure jitZero "văn bản" =
        (.ok "văn bản", 1)) :=
  ⟨by decide, rfl, by decide, by decide,
    stage_error_surfacing_amended "key" (by decide) opPlainFailure jitZero
      _ "văn bản" rfl (by decide) (by decide)⟩

/-- C8: if the environment-supplied API key is absent (undefined or
empty), every AI-backed operation fails with the configuration error
before any remote attempt is made: the remote operation is invoked zero
times. -/
theorem missing_api_key_no_remote_calls (apiKey : Option String)
    (op : Nat → Except String String) (jit : Nat → ℚ)
    (parse : String → Except String GeneratedDraft) (input : String)
    (h : keyMissing apiKey = true) :
    generateDocumentContentWithAI apiKey op jit parse =
      (.error "API key not configured.", 0) ∧
    formalizeContentWithAI apiKey op jit = (.error "API key not configured.", 0) ∧
    suggestFormattingWithAI apiKey op jit input =
      (.error "API key not configured.", 0) ∧
    proofreadWithAI apiKey op jit = (.error "API key not configured.", 0) ∧
    extractTextFromImage apiKey op jit = (.error "API key not configured.", 0) ∧
    analyzeText apiKey op jit = (.error "API key not configured.", 0) := by
  have hc : getAIClient apiKey = .error "API key not configured." := by
    cases apiKey with
    | none => rfl
    | some k =>
      simp only [keyMissing] at h
      simp [getAIClient, h]
  simp [generateDocumentContentWithAI, formalizeContentWithAI,
    suggestFormattingWithAI, proofreadWithAI, extractTextFromImage,
    analyzeText, hc]

theorem missing_api_key_no_remote_calls_witness :
    (keyMissing none = true) ∧
    (generateDocumentContentWithAI none opAllRateLimited jitZero parseNever =
      (.error "API key not configured.", 0) ∧
    formalizeContentWithAI none opAllRateLimited jitZero =
      (.error "API key not configured.", 0) ∧
    suggestFormattingWithAI none opAllRateLimited jitZero "nội dung" =
      (.error "API key not configured.", 0) ∧
    proofreadWithAI none opAllRateLimited jitZero =
      (.error "API key not configured.", 0) ∧
    extractTextFromImage none opAllRateLimited jitZero =
      (.error "API key not configured.", 0) ∧
    analyzeText none opAllRateLimited jitZero =
      (.error "API key not configured.", 0)) :=
  ⟨rfl, missing_api_key_no_remote_calls none opAllRateLimited jitZero
    parseNever "nội dung" rfl⟩

theorem findIndex_eq_some {p : α → Bool} :
    ∀ {l : List α} {i : Nat}, findIndex p l = some i →
      ∃ h : i < l.length, p (l.get ⟨i, h⟩) = true ∧
        ∀ j (hj : j < l.length), j < i → p (l.get ⟨j, hj⟩) = false := by
  intro l
  induction l with
  | nil => intro i h; simp [findIndex] at h
  | cons a t ih =>
    intro i h
    by_cases hp : p a
    · rw [findIndex, if_pos hp] at h
      injection h with h
      subst h
      exact ⟨by simp, by simpa using hp, fun j hj hji => absurd hji (by omega)⟩
    · rw [findIndex, if_neg hp] at h
      cases hft : findIndex p t with
      | none => rw [hft] at h; simp at h
      | some k =>
        rw [hft] at h
        simp at h
        subst h
        obtain ⟨hk, hpk, hall⟩ := ih hft
        refine ⟨by simpa using Nat.succ_lt_succ hk, by simpa using hpk, ?_⟩
        intro j hj hji
        cases j with
        | zero => simpa using hp
        | succ j =>
          have := hall j (by simpa using hj) (by omega)
          simpa using this

theorem findIndex_eq_none {p : α → Bool} :
    ∀ {l : List α}, findIndex p l = none →
      ∀ j (hj : j < l.length), p (l.get ⟨j, hj⟩) = false := by
  intro l
  induction l with
  | nil => intro _ j hj; exact absurd hj (by simp)
  | cons a t ih =>
    intro h j hj
    rw [findIndex] at h
    by_cases hp : p a
    · rw [if_pos hp] at h; simp at h
    · rw [if_neg hp] at h
      cases hft : findIndex p t with
      | some k => rw [hft] at h; simp at h
      | none =>
        cases j with
        | zero => simpa using hp
        | succ j => simpa using ih hft j (by simpa using hj)

/-- C5: for every document, valid page index and new raw text,
`handlePageContentChange` sets that page's raw text, clears both of its
derived fields, keeps its identifier, and leaves every other page and
every non-page field of the document unchanged. -/
theorem handlePageContentChange_updates_only_target_page
    (doc : DocumentData) (i : Nat) (hi : i < doc.pages.length) (v : String) :
    (handlePageContentChange doc i v).pages.length = doc.pages.length ∧
    (∀ p q, doc.pages[i]? = some p →
      (handlePageContentChange doc i v).pages[i]? = some q →
      q.id = p.id ∧ q.rawContent = v ∧ q.processedContent = "" ∧
        q.formattedContent = "") ∧
    (∀ j, j ≠ i → (handlePageContentChange doc i v).pages[j]? = doc.pages[j]?) ∧
    (handlePageContentChange doc i v).documentType = doc.documentType ∧
    (handlePageContentChange doc i v).issuingAuthority = doc.issuingAuthority ∧
    (handlePageContentChange doc i v).issuingAuthorityFull = doc.issuingAuthorityFull ∧
    (handlePageContentChange doc i v).abstract = doc.abstract ∧
    (handlePageContentChange doc i v).subject = doc.subject ∧
    (handlePageContentChange doc i v).recipients = doc.recipients ∧
    (handlePageContentChange doc i v).signerTitle = doc.signerTitle ∧
    (handlePageContentChange doc i v).signerName = doc.signerName ∧
    (handlePageContentChange doc i v).place = doc.place ∧
    (handlePageContentChange doc i v).date = doc.date := by
  have hp0 : doc.pages[i]? = some (doc.pages.get ⟨i, hi⟩) := by
    simp [List.getElem?_eq_getElem hi]
  refine ⟨?_, ?_, ?_, ?_, ?_, ?_, ?_, ?_, ?_, ?_, ?_, ?_, ?_⟩
  · simp [handlePageContentChange, hp0]
  · intro p q hp hq
    rw [hp0] at hp
    injection hp with hp
    simp only [handlePageContentChange, hp0] at hq
    rw [List.getElem?_set_eq_of_lt _ hi] at hq
    injection hq with hq
    subst hq
    rw [← hp]
    exact ⟨rfl, rfl, rfl, rfl⟩
  · intro j hj
    simp only [handlePageContentChange, hp0]
    exact List.getElem?_set_ne (Ne.symm hj)
  all_goals simp [handlePageContentChange, hp0]

theorem handlePageContentChange_witness :
    (0 < doc0.pages.length) ∧
    (handlePageContentChange doc0 0 "nội dung mới").pages[1]? =
      doc0.pages[1]? :=
  ⟨by decide,
    (handlePageContentChange_updates_only_target_page doc0 0 (by decide)
      "nội dung mới").2.2.1 1 (by decide)⟩

/-- C6: the debounced processing effect serializes work through the
single-slot `Option Nat` selection `pageToProcessIndex`; when a cycle
starts, the chosen page is the first (lowest-index) page whose raw text
is non-empty after trimming and whose processed text is still empty,
and when no such page exists no page is selected. -/
theorem pageToProcessIndex_selects_first_unprocessed (pages : List Page) :
    (∀ i, pageToProcessIndex pages = some i →
      ∃ h : i < pages.length, pageNeedsProcessing (pages.get ⟨i, h⟩) = true ∧
        ∀ j (hj : j < pages.length), j < i →
          pageNeedsProcessing (pages.get ⟨j, hj⟩) = false) ∧
    (pageToProcessIndex pages = none →
      ∀ j (hj : j < pages.length), pageNeedsProcessing (pages.get ⟨j, hj⟩) = false) :=
  ⟨fun _ h => findIndex_eq_some h, fun h => findIndex_eq_none h⟩

theorem pageToProcessIndex_witness :
    pageToProcessIndex pages0 = some 1 ∧
    (∃ h : 1 < pages0.length, pageNeedsProcessing (pages0.get ⟨1, h⟩) = true ∧
      ∀ j (hj : j < pages0.length), j < 1 →
        pageNeedsProcessing (pages0.get ⟨j, hj⟩) = false) :=
  ⟨by decide,
    (pageToProcessIndex_selects_first_unprocessed pages0).1 1 (by decide)⟩

/-- C9: `removeFile` deletes exactly the entries whose identifier equals
`id`: the result is a sublist of the input (remaining entries unchanged
and in order), contains no entry with that identifier, retains every
entry with a different identifier, and is the whole list when no entry
has that identifier. -/
theorem removeFile_filters_by_id (files : List ProcessedFile) (id : String) :
    (removeFile files id).Sublist files ∧
    (∀ f, f ∈ removeFile files id → f.id ≠ id) ∧
    (∀ f, f ∈ files → f.id ≠ id → f ∈ removeFile files id) ∧
    ((∀ f, f ∈ files → f.id ≠ id) → removeFile files id = files) := by
  refine ⟨List.filter_sublist _, ?_, ?_, ?_⟩
  · intro f hf
    have := List.of_mem_filter hf
    simpa using this
  · intro f hf hne
    exact List.mem_filter.mpr ⟨hf, by simpa using hne⟩
  · intro h
    apply List.filter_eq_self.mpr
    intro f hf
    simpa using h f hf

theorem removeFile_witness :
    (fileB ∈ files0) ∧ (fileB.id ≠ "a") ∧ fileB ∈ removeFile files0 "a" :=
  ⟨by decide, by decide,
    (removeFile_filters_by_id files0 "a").2.2.1 fileB (by decide) (by decide)⟩

/-- C10: editing the issuing-authority field also recomputes the
title-cased full name and derives the abbreviation from the initials of
the words whose first character is already upper-case, and rewrites the
recipients text: the first line that (after trimming) starts with
`- Lưu:` is replaced by `- Lưu: VT, <abbreviation>.`, or such a line is
appended when none exists, with all other recipients lines preserved in
order and all other fields untouched; an edit to any other non-page
field changes only that field. -/
theorem handleDataChange_issuingAuthority_spec (doc : DocumentData) :
    (∀ authority,
      (handleDataChange doc .issuingAuthority (.str authority)).issuingAuthority
          = authority ∧
      (handleDataChange doc .issuingAuthority (.str authority)).issuingAuthorityFull
          = jsJoin " " ((jsSplit authority ' ').map titleCaseWord) ∧
      ((∃ idx, findIndex luuLinePred (jsSplit doc.recipients '\n') = some idx ∧
          (∃ h : idx < (jsSplit doc.recipients '\n').length,
            luuLinePred ((jsSplit doc.recipients '\n').get ⟨idx, h⟩) = true ∧
            ∀ j (hj : j < (jsSplit doc.recipients '\n').length), j < idx →
              luuLinePred ((jsSplit doc.recipients '\n').get ⟨j, hj⟩) = false) ∧
          (handleDataChange doc .issuingAuthority (.str authority)).recipients =
            jsJoin "\n" ((jsSplit doc.recipients '\n').set idx
              ("- Lưu: VT, " ++ initialsAbbr authority ++ "."))) ∨
        (findIndex luuLinePred (jsSplit doc.recipients '\n') = none ∧
          (∀ j (hj : j < (jsSplit doc.recipients '\n').length),
            luuLinePred ((jsSplit doc.recipients '\n').get ⟨j, hj⟩) = false) ∧
          (handleDataChange doc .issuingAuthority (.str authority)).recipients =
            jsJoin "\n" (jsSplit doc.recipients '\n' ++
              ["- Lưu: VT, " ++ initialsAbbr authority ++ "."]))) ∧
      (handleDataChange doc .issuingAuthority (.str authority)).pages = doc.pages ∧
      (handleDataChange doc .issuingAuthority (.str authority)).documentType
          = doc.documentType ∧
      (handleDataChange doc .issuingAuthority (.str authority)).abstract
          = doc.abstract ∧
      (handleDataChange doc .issuingAuthority (.str authority)).subject
          = doc.subject ∧
      (handleDataChange doc .issuingAuthority (.str authority)).signerTitle
          = doc.signerTitle ∧
      (handleDataChange doc .issuingAuthority (.str authority)).signerName
          = doc.signerName ∧
      (handleDataChange doc .issuingAuthority (.str authority)).place
          = doc.place ∧
      (handleDataChange doc .issuingAuthority (.str authority)).date
          = doc.date) ∧
    (∀ f v, f ≠ DocField.issuingAuthority → fieldWellTyped f v = true →
      getField (handleDataChange doc f v) f = v ∧
      (∀ g, g ≠ f → getField (handleDataChange doc f v) g = getField doc g) ∧
      (handleDataChange doc f v).pages = doc.pages) := by
  constructor
  · intro authority
    cases hidx : findIndex luuLinePred (jsSplit doc.recipients '\n') with
    | some idx =>
      have hidx2 : findIndex (fun line => jsStartsWith (jsTrim line) "- Lưu:")
          (jsSplit doc.recipients '\n') = some idx := hidx
      refine ⟨rfl, rfl,
        Or.inl ⟨idx, rfl, findIndex_eq_some hidx, ?_⟩,
        rfl, rfl, rfl, rfl, rfl, rfl, rfl, rfl⟩
      show (handleIssuingAuthorityChange doc authority).recipients = _
      simp only [handleIssuingAuthorityChange, hidx2]
      rfl
    | none =>
      have hidx2 : findIndex (fun line => jsStartsWith (jsTrim line) "- Lưu:")
          (jsSplit doc.recipients '\n') = none := hidx
      refine ⟨rfl, rfl,
        Or.inr ⟨rfl, findIndex_eq_none hidx, ?_⟩,
        rfl, rfl, rfl, rfl, rfl, rfl, rfl, rfl⟩
      show (handleIssuingAuthorityChange doc authority).recipients = _
      simp only [handleIssuingAuthorityChange, hidx2]
      rfl
  · intro f v hf hw
    have hset : handleDataChange doc f v = setPlainField doc f v := by
      cases f <;> cases v <;> first
        | rfl
        | exact absurd rfl hf
    rw [hset]
    refine ⟨?_, ?_, ?_⟩
    · cases f <;> cases v <;> simp_all [setPlainField, getField, fieldWellTyped]
    · intro g hg
      cases f <;> cases v <;> cases g <;>
        simp_all [setPlainField, getField, fieldWellTyped]
    · cases f <;> cases v <;> simp_all [setPlainField, fieldWellTyped]

theorem handleDataChange_witness :
    (DocField.subject ≠ DocField.issuingAuthority ∧
      fieldWellTyped .subject (.str "Trích yếu mới") = true) ∧
    (getField (handleDataChange doc0 .subject (.str "Trích yếu mới")) .subject =
        .str "Trích yếu mới" ∧
      (∀ g, g ≠ DocField.subject →
        getField (handleDataChange doc0 .subject (.str "Trích yếu mới")) g =
          getField doc0 g) ∧
      (handleDataChange doc0 .subject (.str "Trích yếu mới")).pages = doc0.pages) ∧
    (handleDataChange doc0 .issuingAuthority
        (.str "Sở Giáo dục và Đào tạo")).issuingAuthority =
      "Sở Giáo dục và Đào tạo" ∧
    (handleDataChange doc0 .issuingAuthority
        (.str "Sở Giáo dục và Đào tạo")).issuingAuthorityFull =
      "Sở Giáo Dục Và Đào Tạo" ∧
    initialsAbbr "Sở Giáo dục và Đào tạo" = "SGĐ" ∧
    (handleDataChange doc0 .issuingAuthority
        (.str "Sở Giáo dục và Đào tạo")).recipients =
      "Như trên;\n- Lưu: VT, SGĐ." ∧
    titleCaseWord "PHÒNG" = "Phòng" ∧
    firstCharIsUpper "đào" = false ∧
    firstCharIsUpper "Đào" = true :=
  ⟨⟨by decide, by decide⟩,
    (handleDataChange_issuingAuthority_spec doc0).2 .subject
      (.str "Trích yếu mới") (by decide) (by decide),
    ((handleDataChange_issuingAuthority_spec doc0).1 "Sở Giáo dục và Đào tạo").1,
    by decide, by decide, by decide, by decide, by decide, by decide⟩
